import Mathlib

/-!
Shallow embedding of `custom_components/geosphere_wetterwarnung/coordinator.py`.

Python's dynamically typed values are modelled by `PyVal`; floating point
values are modelled as exact rationals (plus the special values `inf`,
`-inf`, `nan`), which is faithful for the decimal-literal parsing, the
truthiness tests and the integer truncation that the coordinator performs.
Warning documents are modelled as typed records with all known raw-info
fields optional, plus an association list of unknown extra fields; an
absent nested map is identified with an empty one (the two are
read-equivalent for every access the source performs).
-/

namespace GeoWW

/-- An exact (not necessarily reduced) rational `num / den`, the carrier for
finite float values.  No normalisation is performed, which keeps every
operation kernel-computable; the source never compares float values, so
only the operations modelled below (truncation, truthiness, textual form)
give `PyQ` its meaning. -/
structure PyQ where
  num : Int
  den : Nat
deriving DecidableEq

/-- Model of a Python float value: an exact rational for finite values,
plus the three special values. -/
inductive PyFloat where
  | finite (q : PyQ)
  | inf
  | neginf
  | nan
deriving DecidableEq

/-- Model of the Python values that can appear in a warning document or a
zone attribute: `None`, booleans, integers, floats and strings. -/
inductive PyVal where
  | none
  | bool (b : Bool)
  | int (n : Int)
  | float (f : PyFloat)
  | str (s : String)
deriving DecidableEq

/-- Whitespace characters stripped by `str.strip()` (ASCII subset, which is
what the coordinator's inputs can contain). -/
def isPySpace (c : Char) : Bool :=
  c = ' ' || c = '\t' || c = '\n' || c = '\r' || c.toNat = 11 || c.toNat = 12

/-- Model of Python `str.strip()` on a character list. -/
def stripChars (cs : List Char) : List Char :=
  ((cs.dropWhile isPySpace).reverse.dropWhile isPySpace).reverse

/-- Model of Python `str.split(sep)` for a one-character separator. -/
def splitChar (sep : Char) : List Char → List (List Char)
  | [] => [[]]
  | c :: cs =>
    let r := splitChar sep cs
    if c = sep then [] :: r
    else
      match r with
      | [] => [[c]]
      | g :: gs => (c :: g) :: gs

/-- Lower-case an ASCII letter (used for the case-insensitive parts of
Python's float literal syntax). -/
def lowerAscii (c : Char) : Char :=
  if 65 ≤ c.toNat && c.toNat ≤ 90 then Char.ofNat (c.toNat + 32) else c

/-- Split a leading `+`/`-` sign off a character list; returns whether the
sign was negative together with the remainder. -/
def parseSign : List Char → Bool × List Char
  | '+' :: cs => (false, cs)
  | '-' :: cs => (true, cs)
  | cs => (false, cs)

/-- Take the longest digit run from the front of a character list. -/
def takeDigits : List Char → List Char × List Char
  | [] => ([], [])
  | c :: cs =>
    if c.isDigit then
      let r := takeDigits cs
      (c :: r.1, r.2)
    else ([], c :: cs)

/-- Numeric value of a digit run. -/
def digitsToNat (ds : List Char) : Nat :=
  ds.foldl (fun a c => a * 10 + (c.toNat - 48)) 0

/-- Parse the exponent suffix of a Python float literal (after the `e`):
an optional sign followed by a nonempty digit run consuming the whole rest.
A positive exponent scales the numerator, a negative one the denominator. -/
def parseExp (mant : PyQ) (cs : List Char) : Option PyQ :=
  let sr := parseSign cs
  if !sr.2.isEmpty && sr.2.all Char.isDigit then
    let e := digitsToNat sr.2
    some (if sr.1 then ⟨mant.num, mant.den * 10 ^ e⟩
          else ⟨mant.num * (10 ^ e : Int), mant.den⟩)
  else Option.none

/-- Parse an unsigned Python decimal float literal: `digits`, `digits.digits`,
`digits.`, `.digits`, each optionally followed by an exponent. -/
def parseUnsignedFloat (cs : List Char) : Option PyQ :=
  let ir := takeDigits cs
  match ir.2 with
  | [] => if ir.1.isEmpty then Option.none else some ⟨(digitsToNat ir.1 : Int), 1⟩
  | '.' :: rest2 =>
    let fr := takeDigits rest2
    if ir.1.isEmpty && fr.1.isEmpty then Option.none
    else
      let mant : PyQ := ⟨(digitsToNat (ir.1 ++ fr.1) : Int), 10 ^ fr.1.length⟩
      match fr.2 with
      | [] => some mant
      | e :: rest4 => if lowerAscii e = 'e' then parseExp mant rest4 else Option.none
  | e :: rest2 =>
    if lowerAscii e = 'e' && !ir.1.isEmpty then
      parseExp ⟨(digitsToNat ir.1 : Int), 1⟩ rest2
    else Option.none

/-- Model of Python `float(s)` on a string: strips whitespace, accepts an
optional sign, the special spellings `inf`/`infinity`/`nan`
(case-insensitively), or a decimal literal.  (Digit-group underscores are
not modelled.) -/
def pyFloatOfChars (s : List Char) : Option PyFloat :=
  let cs := stripChars s
  let sr := parseSign cs
  let lower := sr.2.map lowerAscii
  if lower = "inf".data || lower = "infinity".data then
    some (if sr.1 then PyFloat.neginf else PyFloat.inf)
  else if lower = "nan".data then some PyFloat.nan
  else
    match parseUnsignedFloat sr.2 with
    | some q => some (PyFloat.finite (if sr.1 then ⟨-q.num, q.den⟩ else q))
    | Option.none => Option.none

/-- Model of Python `int(s)` on a string: strips whitespace, accepts an
optional sign followed by a nonempty digit run. -/
def pyIntOfString (s : String) : Option Int :=
  let cs := stripChars s.data
  let sr := parseSign cs
  if !sr.2.isEmpty && sr.2.all Char.isDigit then
    some (if sr.1 then -(digitsToNat sr.2 : Int) else (digitsToNat sr.2 : Int))
  else Option.none

/-- Truncation of a rational toward zero, the behaviour of Python `int()`
on a finite float. -/
def ratTrunc (q : PyQ) : Int := Int.tdiv q.num (q.den : Int)

/-- Model of Python `int(x)` under a `try/except (TypeError, ValueError)`:
`none` means the conversion raised.  `int` of an infinite float raises
`OverflowError` in Python, which the coordinator's handler would not catch;
that value cannot reach the conversion in this development, and the model
conservatively treats it as a failed conversion. -/
def pyToInt : PyVal → Option Int
  | PyVal.none => Option.none
  | PyVal.bool b => some (if b then 1 else 0)
  | PyVal.int n => some n
  | PyVal.float (PyFloat.finite q) => some (ratTrunc q)
  | PyVal.float _ => Option.none
  | PyVal.str s => pyIntOfString s

/-- Model of Python `float(x)` under a `try/except (TypeError, ValueError)`:
`none` means the conversion raised. -/
def pyToFloat : PyVal → Option PyFloat
  | PyVal.none => Option.none
  | PyVal.bool b => some (PyFloat.finite ⟨if b then 1 else 0, 1⟩)
  | PyVal.int n => some (PyFloat.finite ⟨n, 1⟩)
  | PyVal.float f => some f
  | PyVal.str s => pyFloatOfChars s.data

/-- Python truthiness of a value. -/
def pyTruthy : PyVal → Bool
  | PyVal.none => false
  | PyVal.bool b => b
  | PyVal.int n => decide (n ≠ 0)
  | PyVal.float (PyFloat.finite q) => decide (q.num ≠ 0)
  | PyVal.float _ => true
  | PyVal.str s => decide (s ≠ "")

/-- Textual form of a float, as used by Python string conversion.  It is
exact for integral floats, the only float values whose textual form this
development ever inspects; for other rationals a normal-form fallback is
used. -/
def reprFloat : PyFloat → String
  | PyFloat.finite q =>
    if q.den = 1 then toString q.num ++ ".0"
    else toString q.num ++ "/" ++ toString q.den
  | PyFloat.inf => "inf"
  | PyFloat.neginf => "-inf"
  | PyFloat.nan => "nan"

/-- Model of Python `str(x)`. -/
def pyStr : PyVal → String
  | PyVal.none => "None"
  | PyVal.bool b => if b then "True" else "False"
  | PyVal.int n => toString n
  | PyVal.float f => reprFloat f
  | PyVal.str s => s

/-- Model of Python `sep.join(xs)`. -/
def pyJoin (sep : String) : List String → String
  | [] => ""
  | [s] => s
  | s :: rest => s ++ sep ++ pyJoin sep rest

/-! ## Warning documents (data model of `coordinator.py`) -/

/-- Typed model of a warning's `rawinfo` block: every known field is
optional (`Option.none` models an absent key), and unrecognised keys are
kept in `extra` so that copying can be seen to preserve them. -/
structure RawInfo where
  id : Option PyVal
  awcode : Option PyVal
  warnid : Option PyVal
  wcode : Option PyVal
  wtype : Option PyVal
  wlevel : Option PyVal
  start : Option PyVal
  «end» : Option PyVal
  extra : List (String × PyVal)
deriving DecidableEq

/-- Model of a warning's `properties` block: the `rawinfo` sub-map plus the
remaining keys. -/
structure WProps where
  rawinfo : RawInfo
  extra : List (String × PyVal)
deriving DecidableEq

/-- Model of one warning document: the `properties` block plus the
remaining top-level keys. -/
structure Warning where
  properties : WProps
  extra : List (String × PyVal)
deriving DecidableEq

/-- Model of `raw.get(key)`: an absent key reads as Python `None`. -/
def rawGet (v : Option PyVal) : PyVal := v.getD PyVal.none

/-- Model of `str(raw.get(key, ""))`: an absent key falls back to the
default `""`, whose string form is `""`. -/
def strOrEmpty : Option PyVal → String
  | some v => pyStr v
  | Option.none => ""

/-! ## `_parse_extra_coords` (coordinator.py lines 29-47) -/

/-- Body of the per-segment loop of `_parse_extra_coords`: strip the
segment, skip it if empty, split on `,`, require exactly two pieces, strip
and float-parse each piece; any failure skips the segment. -/
def parseSegment (part : List Char) : Option (PyFloat × PyFloat) :=
  let p := stripChars part
  if p.isEmpty then Option.none
  else
    match splitChar ',' p with
    | [a, b] =>
      match pyFloatOfChars (stripChars a), pyFloatOfChars (stripChars b) with
      | some la, some lo => some (la, lo)
      | _, _ => Option.none
    | _ => Option.none

/-- Model of `_parse_extra_coords`: an empty text yields `[]`; otherwise the
text is split on `;` and each surviving segment's pair is appended in
order. -/
def _parse_extra_coords (text : String) : List (PyFloat × PyFloat) :=
  if text = "" then []
  else
    (splitChar ';' text.data).foldl
      (fun coords part =>
        match parseSegment part with
        | some p => coords ++ [p]
        | Option.none => coords) []

/-! ## `_warning_key` (coordinator.py lines 50-63) -/

/-- The identity-field loop of `_warning_key`: probe `id`, `awcode`,
`warnid`, `wcode` in order and return `"<field>:<str(value)>"` for the
first truthy one. -/
def firstIdKey (raw : RawInfo) : Option String :=
  if pyTruthy (rawGet raw.id) then some ("id:" ++ pyStr (rawGet raw.id))
  else if pyTruthy (rawGet raw.awcode) then some ("awcode:" ++ pyStr (rawGet raw.awcode))
  else if pyTruthy (rawGet raw.warnid) then some ("warnid:" ++ pyStr (rawGet raw.warnid))
  else if pyTruthy (rawGet raw.wcode) then some ("wcode:" ++ pyStr (rawGet raw.wcode))
  else Option.none

/-- The fallback composite key of `_warning_key`:
`"|".join([str(wtype), str(wlevel), str(start), str(end)])` with missing
fields rendered as the empty string. -/
def fallbackKey (raw : RawInfo) : String :=
  pyJoin "|" [strOrEmpty raw.wtype, strOrEmpty raw.wlevel,
              strOrEmpty raw.start, strOrEmpty raw.«end»]

/-- Model of `_warning_key`. -/
def _warning_key (w : Warning) : String :=
  match firstIdKey w.properties.rawinfo with
  | some s => s
  | Option.none => fallbackKey w.properties.rawinfo

/-! ## `_get_end_ts` (coordinator.py lines 66-71) -/

/-- Model of `_get_end_ts`: `int(raw.get("end", 0))` with `TypeError` and
`ValueError` converted to `0`. -/
def _get_end_ts (w : Warning) : Int :=
  match w.properties.rawinfo.«end» with
  | Option.none => 0
  | some v => (pyToInt v).getD 0

/-! ## `_copy_with_end` (coordinator.py lines 74-81) -/

/-- Model of `_copy_with_end`: rebuild the document with `rawinfo["end"]`
set to the integer `newEnd`, leaving every other field in place. -/
def _copy_with_end (w : Warning) (newEnd : Int) : Warning :=
  { w with properties :=
      { w.properties with rawinfo :=
          { w.properties.rawinfo with «end» := some (PyVal.int newEnd) } } }

/-! ## `_extend_if_grace_applies` (coordinator.py lines 84-94) -/

/-- Model of `_extend_if_grace_applies`. -/
def _extend_if_grace_applies (warning : Warning) (nowTs graceSeconds : Int)
    (allowInvalidEnd : Bool) : Option Warning :=
  if _get_end_ts warning ≤ 0 then
    if allowInvalidEnd then some warning else Option.none
  else if nowTs ≤ _get_end_ts warning then some warning
  else if nowTs ≤ _get_end_ts warning + graceSeconds then
    some (_copy_with_end warning (_get_end_ts warning + graceSeconds))
  else Option.none

/-! ## Fetch-and-merge engine (`_async_update_data`, coordinator.py lines 158-200)

The network is external: the outcome of each coordinate's GET request is an
input to the model.  A response body is modelled by the result of the two
reads the source performs on it: `resp.text()` (`Option.none` models the
read raising) and `resp.json()` together with the
`properties.warnings`-extraction (`Except.error` models the read raising,
carrying the exception's textual form). -/

/-- A coordinate point `(latitude, longitude)`. -/
abbrev Coord := PyFloat × PyFloat

/-- The `f"{lat_val},{lon_val}"` diagnostic label of a coordinate. -/
def coordLabel (c : Coord) : String := reprFloat c.1 ++ "," ++ reprFloat c.2

/-- Outcome of `resp.json()` plus the `properties.warnings` extraction:
either the read raised (with the exception's textual form) or it produced
a warnings list. -/
inductive JsonOutcome where
  | raised (err : String)
  | parsed (warnings : List Warning)
deriving DecidableEq

/-- An HTTP response as the source observes it. -/
structure HttpResp where
  status : Nat
  text : Option String
  json : JsonOutcome
deriving DecidableEq

/-- Outcome of one coordinate's GET request: an exception raised before a
status was observed (timeout, transport error), or a response. -/
inductive FetchOutcome where
  | exn (err : String)
  | resp (r : HttpResp)
deriving DecidableEq

/-- The loop state of the per-coordinate fetch loop. -/
structure FetchState where
  combined : List Warning
  anySuccess : Bool
  maxHttpStatus : Option Nat
  errorMessages : List String
deriving DecidableEq

/-- One iteration of the fetch loop (coordinator.py lines 164-194). -/
def fetchStep (fetch : Coord → FetchOutcome) (st : FetchState) (c : Coord) :
    FetchState :=
  match fetch c with
  | FetchOutcome.exn e =>
    { st with errorMessages := st.errorMessages ++ [coordLabel c ++ ": " ++ e] }
  | FetchOutcome.resp r =>
    let newMax : Nat :=
      match st.maxHttpStatus with
      | Option.none => r.status
      | some m => if r.status > m then r.status else m
    let st := { st with maxHttpStatus := some newMax }
    if r.status ≠ 200 then
      { st with errorMessages := st.errorMessages ++
          [coordLabel c ++ ": HTTP " ++ toString r.status ++ " " ++
            r.text.getD "<no body>"] }
    else
      match r.json with
      | JsonOutcome.raised e =>
        { st with errorMessages := st.errorMessages ++ [coordLabel c ++ ": " ++ e] }
      | JsonOutcome.parsed ws =>
        { st with anySuccess := true, combined := st.combined ++ ws }

/-- The whole fetch loop over the resolved coordinate list. -/
def fetchLoop (coords : List Coord) (fetch : Coord → FetchOutcome) : FetchState :=
  coords.foldl (fetchStep fetch) ⟨[], false, Option.none, []⟩

/-- Whether a fetch outcome counts as a success for the source: HTTP 200
and a body that parses. -/
def outcomeSuccess : FetchOutcome → Bool
  | FetchOutcome.resp r =>
    r.status == 200 && (match r.json with | JsonOutcome.parsed _ => true | _ => false)
  | _ => false

/-! ## Warning cache and reconciliation (coordinator.py lines 202-248) -/

/-- A cache entry `{"warning": ..., "last_seen_ts": ...}`. -/
structure CacheEntry where
  warning : Warning
  last_seen_ts : Int
deriving DecidableEq

/-- The warning cache: an insertion-ordered mapping, as a Python dict. -/
abbrev Cache := List (String × CacheEntry)

/-- Python-dict assignment `cache[k] = v`: overwrite in place, or append a
new key at the end. -/
def dictInsert (k : String) (v : CacheEntry) : Cache → Cache
  | [] => [(k, v)]
  | (k', v') :: rest =>
    if k' = k then (k, v) :: rest else (k', v') :: dictInsert k v rest

/-- The loop state of the first reconciliation loop. -/
structure IngestState where
  currentKeys : List String
  cache : Cache
  output : List Warning
deriving DecidableEq

/-- One iteration of the first reconciliation loop (lines 207-218): record
the key, overwrite the cache entry with the original record and `now`, and
append the grace-extended form (``allow_invalid_end=True``) when present. -/
def ingestWarning (nowTs graceSeconds : Int) (st : IngestState) (w : Warning) :
    IngestState :=
  let key := _warning_key w
  let st := { st with
    currentKeys := st.currentKeys ++ [key],
    cache := dictInsert key ⟨w, nowTs⟩ st.cache }
  match _extend_if_grace_applies w nowTs graceSeconds true with
  | some e => { st with output := st.output ++ [e] }
  | Option.none => st

/-- Decision for one cache entry in the second reconciliation loop. -/
inductive EntryAction where
  | skip
  | expire
  | keep (w : Warning)
deriving DecidableEq

/-- The per-entry body of the second reconciliation loop (lines 221-238). -/
def reconcileEntry (currentKeys : List String) (nowTs graceSeconds : Int)
    (key : String) (entry : CacheEntry) : EntryAction :=
  if currentKeys.contains key then EntryAction.skip
  else if graceSeconds ≤ 0 ∨ entry.last_seen_ts = 0 then EntryAction.expire
  else if nowTs - entry.last_seen_ts > graceSeconds then EntryAction.expire
  else
    match _extend_if_grace_applies entry.warning nowTs graceSeconds false with
    | some w => EntryAction.keep w
    | Option.none => EntryAction.expire

/-- The second reconciliation loop: collect the expired keys and the kept
(grace-extended) cached warnings, in cache-iteration order. -/
def reconcileLoop (cache : Cache) (currentKeys : List String)
    (nowTs graceSeconds : Int) : List String × List Warning :=
  cache.foldl
    (fun acc kv =>
      match reconcileEntry currentKeys nowTs graceSeconds kv.1 kv.2 with
      | EntryAction.skip => acc
      | EntryAction.expire => (acc.1 ++ [kv.1], acc.2)
      | EntryAction.keep w => (acc.1, acc.2 ++ [w])) ([], [])

/-- `self._warning_cache.pop(key, None)` over the expired-key list
(lines 240-241). -/
def cachePop (cache : Cache) (keys : List String) : Cache :=
  cache.filter (fun kv => !(keys.contains kv.1))

/-- The externally visible result of one cycle:
`{"properties": {"warnings": [...]}}`. -/
structure CycleData where
  warnings : List Warning
deriving DecidableEq

/-- The coordinator's mutable per-instance state. -/
structure CycleState where
  lastHttpStatus : Option Nat
  lastHttpResponse : Option String
  hadPartialFailure : Bool
  lastSuccessfulData : Option CycleData
  lastNonEmptyData : Option CycleData
  lastNonEmptyUtc : Option Int
  warningCache : Cache
  lastRequestUtc : Option Int
deriving DecidableEq

/-- The `any_success` branch of `_async_update_data` (lines 202-248):
ingest the combined warnings, reconcile the rest of the cache, drop the
expired keys and store the snapshots. -/
def successBranch (st : CycleState) (combined : List Warning)
    (nowTs graceSeconds : Int) : CycleData × CycleState :=
  let ing := combined.foldl (ingestWarning nowTs graceSeconds) ⟨[], st.warningCache, []⟩
  let recon := reconcileLoop ing.cache ing.currentKeys nowTs graceSeconds
  let newCache := cachePop ing.cache recon.1
  let wg := ing.output ++ recon.2
  let result : CycleData := ⟨wg⟩
  (result,
   { st with
     warningCache := newCache,
     lastSuccessfulData := some result,
     lastNonEmptyData := if wg.isEmpty then st.lastNonEmptyData else some result,
     lastNonEmptyUtc := if wg.isEmpty then st.lastNonEmptyUtc else some nowTs })

/-- Result of one `_async_update_data` call: a raised `UpdateFailed` with
its message, or a returned cycle result; both carry the coordinator state
after the call. -/
inductive UpdateResult where
  | failed (msg : String) (st : CycleState)
  | ok (data : CycleData) (st : CycleState)
deriving DecidableEq

/-- The coordinator state after the call. -/
def resultState : UpdateResult → CycleState
  | UpdateResult.failed _ st => st
  | UpdateResult.ok _ st => st

/-- The returned cycle result, when the call did not raise. -/
def resultData : UpdateResult → Option CycleData
  | UpdateResult.ok d _ => some d
  | _ => Option.none

/-- The `UpdateFailed` message, when the call raised. -/
def resultFailMsg : UpdateResult → Option String
  | UpdateResult.failed m _ => some m
  | _ => Option.none

/-- The post-resolution part of `_async_update_data` (lines 158-253): run
the fetch loop, record the health fields, then either reconcile (some
fetch succeeded), return the last successful snapshot, or raise. -/
def updateWithCoords (coords : List Coord) (fetch : Coord → FetchOutcome)
    (nowTs graceSeconds : Int) (st : CycleState) : UpdateResult :=
  let fs := fetchLoop coords fetch
  let maxStatus : Option Nat :=
    match fs.maxHttpStatus with
    | some s => some s
    | Option.none => if fs.anySuccess then some 200 else Option.none
  let st := { st with
    hadPartialFailure := !fs.errorMessages.isEmpty,
    lastHttpStatus := maxStatus,
    lastHttpResponse :=
      if fs.errorMessages.isEmpty then Option.none
      else some (pyJoin "; " fs.errorMessages) }
  if fs.anySuccess then
    let r := successBranch st fs.combined nowTs graceSeconds
    UpdateResult.ok r.1 r.2
  else
    match st.lastSuccessfulData with
    | some d => UpdateResult.ok d st
    | Option.none => UpdateResult.failed "Error fetching data: all requests failed" st

/-- The anchor `zone.home` entity's coordinate attributes;
`attributes.get` collapses an absent attribute to `None`. -/
structure Zone where
  longitude : PyVal
  latitude : PyVal
deriving DecidableEq

/-- Model of the whole `_async_update_data` (lines 123-253): stamp the
request time, resolve the anchor zone and the extra coordinates (raising
`UpdateFailed` on the fatal pre-fetch errors), then run the
post-resolution pipeline. -/
def asyncUpdateData (zone : Option Zone) (extraText : String)
    (fetch : Coord → FetchOutcome) (nowTs graceSeconds : Int)
    (st : CycleState) : UpdateResult :=
  let st := { st with lastRequestUtc := some nowTs }
  match zone with
  | Option.none =>
    UpdateResult.failed "zone.home not found"
      { st with lastHttpStatus := Option.none,
                lastHttpResponse := some "zone.home not found" }
  | some z =>
    if z.longitude = PyVal.none ∨ z.latitude = PyVal.none then
      UpdateResult.failed "zone.home has no coordinates"
        { st with lastHttpStatus := Option.none,
                  lastHttpResponse := some "zone.home has no coordinates" }
    else
      match pyToFloat z.latitude, pyToFloat z.longitude with
      | some latF, some lonF =>
        let coords := (latF, lonF) :: _parse_extra_coords extraText
        if coords.isEmpty then
          UpdateResult.failed "no coordinates to query"
            { st with lastHttpStatus := Option.none,
                      lastHttpResponse := some "no coordinates to query" }
        else updateWithCoords coords fetch nowTs graceSeconds st
      | _, _ =>
        UpdateResult.failed "zone.home has invalid coordinates"
          { st with lastHttpStatus := Option.none,
                    lastHttpResponse := some "zone.home has invalid coordinates" }

/-! ## Derived predicates and concrete instances -/

/-- Whether some identity field of the raw-info block (`id`, `awcode`,
`warnid`, `wcode`) is present and truthy, i.e. whether `_warning_key` uses
the identity branch rather than the composite fallback. -/
def hasTruthyIdField (w : Warning) : Bool :=
  pyTruthy (rawGet w.properties.rawinfo.id) ||
  pyTruthy (rawGet w.properties.rawinfo.awcode) ||
  pyTruthy (rawGet w.properties.rawinfo.warnid) ||
  pyTruthy (rawGet w.properties.rawinfo.wcode)

/-- Frame condition for the grace extender: the result is the input itself,
or agrees with the input on every field except `rawinfo["end"]`, which holds
the grace-shifted integer end. -/
def extendFrame (w r : Warning) (g : Int) : Prop :=
  r = w ∨
    (r.extra = w.extra ∧
     r.properties.extra = w.properties.extra ∧
     r.properties.rawinfo.id = w.properties.rawinfo.id ∧
     r.properties.rawinfo.awcode = w.properties.rawinfo.awcode ∧
     r.properties.rawinfo.warnid = w.properties.rawinfo.warnid ∧
     r.properties.rawinfo.wcode = w.properties.rawinfo.wcode ∧
     r.properties.rawinfo.wtype = w.properties.rawinfo.wtype ∧
     r.properties.rawinfo.wlevel = w.properties.rawinfo.wlevel ∧
     r.properties.rawinfo.start = w.properties.rawinfo.start ∧
     r.properties.rawinfo.extra = w.properties.rawinfo.extra ∧
     r.properties.rawinfo.«end» = some (PyVal.int (_get_end_ts w + g)))

/-- A raw-info block with every field absent. -/
def rawEmpty : RawInfo :=
  ⟨Option.none, Option.none, Option.none, Option.none, Option.none,
   Option.none, Option.none, Option.none, []⟩

/-- A minimal warning whose raw-info carries only an `end` field. -/
def mkEndWarning (v : PyVal) : Warning :=
  ⟨⟨{ rawEmpty with «end» := some v }, []⟩, []⟩

/-- The coordinator state as `__init__` leaves it. -/
def initState : CycleState :=
  ⟨Option.none, Option.none, false, Option.none, Option.none, Option.none,
   [], Option.none⟩

/-- The parts of the coordinator state that a fatal pre-fetch abort must
leave untouched: the warning cache and the two retained snapshots. -/
def coreUnchanged (st st' : CycleState) : Prop :=
  st'.warningCache = st.warningCache ∧
  st'.lastSuccessfulData = st.lastSuccessfulData ∧
  st'.lastNonEmptyData = st.lastNonEmptyData

/-- The expired-key contribution of one cache item in the second
reconciliation loop. -/
def expiredOf (ck : List String) (nowTs g : Int) (kv : String × CacheEntry) :
    Option String :=
  match reconcileEntry ck nowTs g kv.1 kv.2 with
  | EntryAction.expire => some kv.1
  | _ => Option.none

/-- The kept-warning contribution of one cache item in the second
reconciliation loop. -/
def keptOf (ck : List String) (nowTs g : Int) (kv : String × CacheEntry) :
    Option Warning :=
  match reconcileEntry ck nowTs g kv.1 kv.2 with
  | EntryAction.keep w => some w
  | _ => Option.none

/-- A concrete warning for the partial-failure counterexample: valid
`end = 100`, no identity fields. -/
def w6 : Warning := mkEndWarning (PyVal.int 100)

/-- First coordinate of the partial-failure counterexample. -/
def c6a : Coord := (PyFloat.finite ⟨1, 1⟩, PyFloat.finite ⟨2, 1⟩)

/-- Second coordinate of the partial-failure counterexample. -/
def c6b : Coord := (PyFloat.finite ⟨3, 1⟩, PyFloat.finite ⟨4, 1⟩)

/-- Fetch outcomes of the partial-failure counterexample: HTTP 200 with one
warning for `c6a`, HTTP 500 for every other coordinate. -/
def fetch6 : Coord → FetchOutcome := fun c =>
  if c = c6a then FetchOutcome.resp ⟨200, some "", JsonOutcome.parsed [w6]⟩
  else FetchOutcome.resp ⟨500, some "boom", JsonOutcome.raised "ignored"⟩

end GeoWW

namespace GeoWW

/-! ## Helper lemmas -/

theorem copy_get_end (w : Warning) (e : Int) :
    _get_end_ts (_copy_with_end w e) = e := rfl

theorem extend_some_cases (w : Warning) (n g : Int) (a : Bool) (r : Warning)
    (h : _extend_if_grace_applies w n g a = some r) :
    r = w ∨ (0 < _get_end_ts w ∧ _get_end_ts w < n ∧ n ≤ _get_end_ts w + g ∧
      r = _copy_with_end w (_get_end_ts w + g)) := by
  unfold _extend_if_grace_applies at h
  split_ifs at h
  all_goals first
    | exact Option.noConfusion h
    | exact Or.inl (Option.some.inj h).symm
    | exact Or.inr ⟨by omega, by omega, by omega, (Option.some.inj h).symm⟩

theorem warning_key_of_firstIdKey_some (w : Warning) (s : String)
    (h : firstIdKey w.properties.rawinfo = some s) : _warning_key w = s := by
  unfold _warning_key
  rw [h]

theorem firstIdKey_some_of_truthy (w : Warning)
    (h : hasTruthyIdField w = true) :
    ∃ s, firstIdKey w.properties.rawinfo = some s := by
  unfold hasTruthyIdField at h
  unfold firstIdKey
  split_ifs <;> first | exact ⟨_, rfl⟩ | simp_all

theorem foldl_append_filterMap (l : List (List Char))
    (acc : List (PyFloat × PyFloat)) :
    l.foldl
      (fun coords part =>
        match parseSegment part with
        | some p => coords ++ [p]
        | Option.none => coords) acc
      = acc ++ l.filterMap parseSegment := by
  induction l generalizing acc with
  | nil => simp
  | cons hd tl ih =>
    simp only [List.foldl_cons, List.filterMap_cons]
    cases h : parseSegment hd with
    | none => simp [ih]
    | some p => simp [ih]

theorem extend_machine (w : Warning) (nowTs g : Int) (allow : Bool) :
    (_get_end_ts w ≤ 0 →
      _extend_if_grace_applies w nowTs g allow
        = (if allow then some w else Option.none)) ∧
    (0 < _get_end_ts w → nowTs ≤ _get_end_ts w →
      _extend_if_grace_applies w nowTs g allow = some w) ∧
    (0 < _get_end_ts w → _get_end_ts w < nowTs → nowTs ≤ _get_end_ts w + g →
      _extend_if_grace_applies w nowTs g allow
        = some (_copy_with_end w (_get_end_ts w + g))) ∧
    (0 < _get_end_ts w → _get_end_ts w < nowTs → _get_end_ts w + g < nowTs →
      _extend_if_grace_applies w nowTs g allow = Option.none) := by
  unfold _extend_if_grace_applies
  refine ⟨fun h1 => ?_, fun h1 h2 => ?_, fun h1 h2 h3 => ?_, fun h1 h2 h3 => ?_⟩
  · rw [if_pos h1]
  · rw [if_neg (by omega), if_pos h2]
  · rw [if_neg (by omega), if_neg (by omega), if_pos h3]
  · rw [if_neg (by omega), if_neg (by omega), if_neg (by omega)]

/-! ## Claims -/

/-- C1, counterexample.  A warning whose raw-info has no truthy identity
field is keyed by the composite fallback, which includes the `end` field;
the grace extension the system itself performs (here at `now = 101`,
`grace = 10` on `end = 100`) rewrites `end`, so the extended copy's key
differs from the original's. -/
theorem C1_key_fallback_counterexample :
    _extend_if_grace_applies (mkEndWarning (PyVal.int 100)) 101 10 false
      = some (_copy_with_end (mkEndWarning (PyVal.int 100)) 110) ∧
    _warning_key (_copy_with_end (mkEndWarning (PyVal.int 100)) 110)
      ≠ _warning_key (mkEndWarning (PyVal.int 100)) := by
  exact ⟨rfl, by decide⟩

/-- C1, amended: whenever some identity field (`id`, `awcode`, `warnid`,
`wcode`) of the raw-info block is truthy, the key derived from any result
of the grace extender — in particular from the grace-extended copy —
equals the key derived from the original record; in the fallback case the
composite key includes the `end` field and extension can change it. -/
theorem C1_key_preserved_amended (w : Warning) (nowTs g : Int) (allow : Bool)
    (r : Warning) (hid : hasTruthyIdField w = true)
    (h : _extend_if_grace_applies w nowTs g allow = some r) :
    _warning_key r = _warning_key w := by
  obtain ⟨s, hs⟩ := firstIdKey_some_of_truthy w hid
  have hw : _warning_key w = s := warning_key_of_firstIdKey_some w s hs
  rcases extend_some_cases w nowTs g allow r h with rfl | ⟨-, -, -, rfl⟩
  · rfl
  · have hc : firstIdKey (_copy_with_end w (_get_end_ts w + g)).properties.rawinfo
        = some s := hs
    rw [warning_key_of_firstIdKey_some _ s hc, hw]

/-- C1, witness: a record carrying a truthy `id` field, grace-extended by
the system at `now = 101`, `grace = 10`, keeps its key. -/
theorem C1_witness :
    _warning_key (_copy_with_end
      ⟨⟨{ rawEmpty with id := some (PyVal.int 7), «end» := some (PyVal.int 100) }, []⟩, []⟩ 110)
      = _warning_key
      ⟨⟨{ rawEmpty with id := some (PyVal.int 7), «end» := some (PyVal.int 100) }, []⟩, []⟩ :=
  C1_key_preserved_amended
    ⟨⟨{ rawEmpty with id := some (PyVal.int 7), «end» := some (PyVal.int 100) }, []⟩, []⟩
    101 10 false _ (by decide) rfl

/-- C2, counterexample.  With a negative grace window (`grace = -50`,
allowed by the claim), a warning with valid `end = 100` at `now = 60`
satisfies `now > end + grace`, yet the extender returns the warning
unchanged instead of `none`. -/
theorem C2_counterexample :
    _get_end_ts (mkEndWarning (PyVal.int 100)) = 100 ∧
    (100 : Int) + (-50) < 60 ∧
    _extend_if_grace_applies (mkEndWarning (PyVal.int 100)) 60 (-50) true
      = some (mkEndWarning (PyVal.int 100)) :=
  ⟨rfl, by decide, rfl⟩

/-- C2, amended: for every warning with a valid end (`end > 0`) and every
NONNEGATIVE grace value, if `now ≤ end + grace` the extender returns a
record whose end lies in `[end, end + grace]`, and if `now > end + grace`
it returns `none`; for negative grace the code keeps any warning with
`now ≤ end` even past `end + grace`. -/
theorem C2_grace_bounds_amended (w : Warning) (nowTs g : Int) (allow : Bool)
    (hend : 0 < _get_end_ts w) (hg : 0 ≤ g) :
    (nowTs ≤ _get_end_ts w + g →
      ∃ r, _extend_if_grace_applies w nowTs g allow = some r ∧
        _get_end_ts w ≤ _get_end_ts r ∧ _get_end_ts r ≤ _get_end_ts w + g) ∧
    (_get_end_ts w + g < nowTs →
      _extend_if_grace_applies w nowTs g allow = Option.none) := by
  have m := extend_machine w nowTs g allow
  constructor
  · intro hle
    rcases le_or_lt nowTs (_get_end_ts w) with h | h
    · exact ⟨w, m.2.1 hend h, le_refl _, by omega⟩
    · refine ⟨_, m.2.2.1 hend h hle, ?_, ?_⟩
      · rw [copy_get_end]; omega
      · rw [copy_get_end]
  · intro hgt
    exact m.2.2.2 hend (by omega) hgt

/-- C2, witness: `end = 100`, `grace = 5`, `now = 103` lies in the grace
window and the extender's result carries an end in `[100, 105]`;
`now = 106` is past the window and the extender drops the warning. -/
theorem C2_witness :
    (∃ r, _extend_if_grace_applies (mkEndWarning (PyVal.int 100)) 103 5 false = some r ∧
      _get_end_ts (mkEndWarning (PyVal.int 100)) ≤ _get_end_ts r ∧
      _get_end_ts r ≤ _get_end_ts (mkEndWarning (PyVal.int 100)) + 5) ∧
    _extend_if_grace_applies (mkEndWarning (PyVal.int 100)) 106 5 false = Option.none :=
  ⟨(C2_grace_bounds_amended (mkEndWarning (PyVal.int 100)) 103 5 false
      (by decide) (by decide)).1 (by decide),
   (C2_grace_bounds_amended (mkEndWarning (PyVal.int 100)) 106 5 false
      (by decide) (by decide)).2 (by decide)⟩

/-- C3: the extender implements the four-case state machine, with the
guards read in the code's order — invalid end (`extracted end ≤ 0`,
covering missing and unparseable fields): pass through iff
`allow_invalid_end`; `now ≤ end`: unchanged; past `end` but
`now ≤ end + grace`: a copy with end rewritten to `end + grace`;
otherwise: dropped. -/
theorem C3_extend_state_machine (w : Warning) (nowTs g : Int) (allow : Bool) :
    (_get_end_ts w ≤ 0 →
      _extend_if_grace_applies w nowTs g allow
        = (if allow then some w else Option.none)) ∧
    (0 < _get_end_ts w → nowTs ≤ _get_end_ts w →
      _extend_if_grace_applies w nowTs g allow = some w) ∧
    (0 < _get_end_ts w → _get_end_ts w < nowTs → nowTs ≤ _get_end_ts w + g →
      _extend_if_grace_applies w nowTs g allow
        = some (_copy_with_end w (_get_end_ts w + g))) ∧
    (0 < _get_end_ts w → _get_end_ts w < nowTs → _get_end_ts w + g < nowTs →
      _extend_if_grace_applies w nowTs g allow = Option.none) :=
  extend_machine w nowTs g allow

/-- C3, witness: one instance of each of the four cases — a missing end
with `allow_invalid_end = false` is dropped, `now = 90 ≤ end = 100` passes
unchanged, `100 < now = 105 ≤ 110 = end + grace` yields the rewritten
copy, and `now = 200 > 110` is dropped. -/
theorem C3_witness :
    _extend_if_grace_applies (mkEndWarning PyVal.none) 5 5 false = Option.none ∧
    _extend_if_grace_applies (mkEndWarning (PyVal.int 100)) 90 5 true
      = some (mkEndWarning (PyVal.int 100)) ∧
    _extend_if_grace_applies (mkEndWarning (PyVal.int 100)) 105 10 false
      = some (_copy_with_end (mkEndWarning (PyVal.int 100)) 110) ∧
    _extend_if_grace_applies (mkEndWarning (PyVal.int 100)) 200 10 true
      = Option.none := by
  refine ⟨?_, ?_, ?_, ?_⟩
  · have h := (C3_extend_state_machine (mkEndWarning PyVal.none) 5 5 false).1 (by decide)
    simpa using h
  · exact (C3_extend_state_machine _ 90 5 true).2.1 (by decide) (by decide)
  · exact (C3_extend_state_machine _ 105 10 false).2.2.1 (by decide) (by decide) (by decide)
  · exact (C3_extend_state_machine _ 200 10 true).2.2.2 (by decide) (by decide) (by decide)

/-- C4: the extender is a pure function of its input — in this embedding
no call mutates the argument — and whenever it returns a record, that
record is either the input itself or a copy agreeing with the input on
every field except `rawinfo["end"]`, which holds `end + grace`. -/
theorem C4_extend_frame (w : Warning) (nowTs g : Int) (allow : Bool)
    (r : Warning) (h : _extend_if_grace_applies w nowTs g allow = some r) :
    extendFrame w r g := by
  rcases extend_some_cases w nowTs g allow r h with rfl | ⟨-, -, -, rfl⟩
  · exact Or.inl rfl
  · exact Or.inr ⟨rfl, rfl, rfl, rfl, rfl, rfl, rfl, rfl, rfl, rfl, rfl⟩

/-- C4, witness: the frame condition at a concrete call that returns the
input unchanged. -/
theorem C4_witness :
    extendFrame (mkEndWarning (PyVal.int 100)) (mkEndWarning (PyVal.int 100)) 1 :=
  C4_extend_frame (mkEndWarning (PyVal.int 100)) 5 1 true
    (mkEndWarning (PyVal.int 100)) rfl

/-- C5: `_parse_extra_coords` equals, for every input text, the in-order
filter-map of the per-segment parser over the semicolon-split of the text —
each segment is stripped and skipped (not an error) when empty, when it
does not split into exactly two comma-separated pieces, or when either
stripped piece fails to parse as a float — and the malformed example
`"1,2;bad;3,4,5;,"` parses to exactly `[(1.0, 2.0)]`. -/
theorem C5_parse_extra_coords :
    (∀ text : String,
      _parse_extra_coords text
        = (splitChar ';' text.data).filterMap parseSegment) ∧
    _parse_extra_coords "1,2;bad;3,4,5;,"
      = [(PyFloat.finite ⟨1, 1⟩, PyFloat.finite ⟨2, 1⟩)] := by
  constructor
  · intro text
    unfold _parse_extra_coords
    split_ifs with h
    · subst h; rfl
    · rw [foldl_append_filterMap, List.nil_append]
  · decide

theorem ingest_output_acc (l : List Warning) (nowTs g : Int) (st0 : IngestState) :
    (l.foldl (ingestWarning nowTs g) st0).output
      = st0.output ++ l.filterMap (fun w => _extend_if_grace_applies w nowTs g true) := by
  induction l generalizing st0 with
  | nil => simp
  | cons hd tl ih =>
    rw [List.foldl_cons, ih]
    cases h : _extend_if_grace_applies hd nowTs g true
    all_goals simp [ingestWarning, h]

theorem successBranch_output_mem (st : CycleState) (combined : List Warning)
    (nowTs g : Int) (w w' : Warning) (hw : w ∈ combined)
    (h : _extend_if_grace_applies w nowTs g true = some w') :
    w' ∈ (successBranch st combined nowTs g).1.warnings := by
  unfold successBranch
  refine List.mem_append_left _ ?_
  rw [ingest_output_acc]
  exact List.mem_append_right _ (List.mem_filterMap.mpr ⟨w, hw, h⟩)

theorem fetchStep_noSuccess (fetch : Coord → FetchOutcome) (st : FetchState)
    (c : Coord) (h : outcomeSuccess (fetch c) = false) :
    (fetchStep fetch st c).anySuccess = st.anySuccess := by
  cases hf : fetch c with
  | exn e => simp [fetchStep, hf]
  | resp r =>
    rw [hf] at h
    rcases r with ⟨status, text, json⟩
    by_cases hs : status = 200
    · subst hs
      cases json with
      | parsed ws => simp [outcomeSuccess] at h
      | raised e => simp [fetchStep, hf]
    · simp [fetchStep, hf, hs]

theorem fetchLoop_noSuccess (coords : List Coord) (fetch : Coord → FetchOutcome)
    (h : ∀ c ∈ coords, outcomeSuccess (fetch c) = false) :
    (fetchLoop coords fetch).anySuccess = false := by
  have H : ∀ (l : List Coord), (∀ c ∈ l, outcomeSuccess (fetch c) = false) →
      ∀ st : FetchState, (l.foldl (fetchStep fetch) st).anySuccess = st.anySuccess := by
    intro l
    induction l with
    | nil => intro _ st; rfl
    | cons hd tl ih =>
      intro hall st
      rw [List.foldl_cons,
        ih (fun c hc => hall c (List.mem_cons_of_mem hd hc)) _,
        fetchStep_noSuccess fetch st hd (hall hd (List.mem_cons_self hd tl))]
  exact H coords h _

theorem reconcileLoop_acc (cache : Cache) (ck : List String) (nowTs g : Int)
    (acc : List String × List Warning) :
    cache.foldl
      (fun acc kv =>
        match reconcileEntry ck nowTs g kv.1 kv.2 with
        | EntryAction.skip => acc
        | EntryAction.expire => (acc.1 ++ [kv.1], acc.2)
        | EntryAction.keep w => (acc.1, acc.2 ++ [w])) acc
      = (acc.1 ++ cache.filterMap (expiredOf ck nowTs g),
         acc.2 ++ cache.filterMap (keptOf ck nowTs g)) := by
  induction cache generalizing acc with
  | nil => simp
  | cons hd tl ih =>
    rw [List.foldl_cons, ih]
    cases h : reconcileEntry ck nowTs g hd.1 hd.2 <;>
      simp [expiredOf, keptOf, h]

theorem reconcileLoop_eq (cache : Cache) (ck : List String) (nowTs g : Int) :
    reconcileLoop cache ck nowTs g
      = (cache.filterMap (expiredOf ck nowTs g),
         cache.filterMap (keptOf ck nowTs g)) := by
  unfold reconcileLoop
  rw [reconcileLoop_acc]
  simp

/-- C6, counterexample.  Two coordinates, one answering HTTP 200 with one
warning (`end = 100`) and a valid body, the other HTTP 500; at
`now = 1000`, `grace = 10` the one warning is already past
`end + grace`, the extender drops it, and the cycle output is empty — it
does not contain the one warning. -/
theorem C6_counterexample :
    fetch6 c6a = FetchOutcome.resp ⟨200, some "", JsonOutcome.parsed [w6]⟩ ∧
    fetch6 c6b = FetchOutcome.resp ⟨500, some "boom", JsonOutcome.raised "ignored"⟩ ∧
    resultData (updateWithCoords [c6a, c6b] fetch6 1000 10 initState)
      = some ⟨[]⟩ ∧
    w6 ∉ ([] : List Warning) := by
  refine ⟨by decide, by decide, by decide, by decide⟩

/-- C6, amended: for every cycle over two coordinates where one fetch
returns HTTP 200 with one warning and a valid body and the other returns
HTTP 500, the cycle succeeds overall (`any_success` is true),
`had_partial_failure` is true, `last_http_status` is 500,
`last_http_response` is exactly the one coordinate-prefixed diagnostic of
the failing coordinate, and the cycle output contains the grace-processed
form of the one warning whenever the extender
(`allow_invalid_end = true`) yields one — a warning already past
`end + grace` is dropped from the output. -/
theorem C6_partial_failure_amended (c1 c2 : Coord) (t1 : Option String)
    (t : String) (w : Warning) (jr : JsonOutcome)
    (fetch : Coord → FetchOutcome) (nowTs g : Int) (st : CycleState)
    (h1 : fetch c1 = FetchOutcome.resp ⟨200, t1, JsonOutcome.parsed [w]⟩)
    (h2 : fetch c2 = FetchOutcome.resp ⟨500, some t, jr⟩) :
    (fetchLoop [c1, c2] fetch).anySuccess = true ∧
    (resultState (updateWithCoords [c1, c2] fetch nowTs g st)).hadPartialFailure
      = true ∧
    (resultState (updateWithCoords [c1, c2] fetch nowTs g st)).lastHttpStatus
      = some 500 ∧
    (resultState (updateWithCoords [c1, c2] fetch nowTs g st)).lastHttpResponse
      = some (coordLabel c2 ++ ": HTTP " ++ toString (500 : Nat) ++ " " ++ t) ∧
    (∀ w', _extend_if_grace_applies w nowTs g true = some w' →
      ∃ ws, resultData (updateWithCoords [c1, c2] fetch nowTs g st)
          = some ⟨ws⟩ ∧ w' ∈ ws) := by
  have s1 : fetchStep fetch ⟨[], false, Option.none, []⟩ c1
      = ⟨[w], true, some 200, []⟩ := by
    unfold fetchStep; rw [h1]; rfl
  have s2 : fetchStep fetch ⟨[w], true, some 200, []⟩ c2
      = ⟨[w], true, some 500,
          [coordLabel c2 ++ ": HTTP " ++ toString (500 : Nat) ++ " " ++ t]⟩ := by
    unfold fetchStep; rw [h2]; rfl
  have hfl : fetchLoop [c1, c2] fetch
      = ⟨[w], true, some 500,
          [coordLabel c2 ++ ": HTTP " ++ toString (500 : Nat) ++ " " ++ t]⟩ := by
    unfold fetchLoop
    rw [List.foldl_cons, s1, List.foldl_cons, s2, List.foldl_nil]
  refine ⟨?_, ?_, ?_, ?_, ?_⟩
  · rw [hfl]
  · simp only [updateWithCoords, hfl]; rfl
  · simp only [updateWithCoords, hfl]; rfl
  · simp only [updateWithCoords, hfl]; rfl
  · intro w' hw'
    have hres : resultData (updateWithCoords [c1, c2] fetch nowTs g st)
        = some ⟨(successBranch
            { st with
              hadPartialFailure := true
              lastHttpStatus := some 500
              lastHttpResponse := some (coordLabel c2 ++ ": HTTP "
                ++ toString (500 : Nat) ++ " " ++ t) }
            [w] nowTs g).1.warnings⟩ := by
      simp only [updateWithCoords, hfl]
      rfl
    exact ⟨_, hres, successBranch_output_mem _ [w] nowTs g w w'
      (List.mem_singleton_self w) hw'⟩

/-- C6, witness: the amended statement at concrete inputs — same scenario
as the counterexample but at `now = 50`, where the one warning is still
live and passes through unchanged into the output. -/
theorem C6_witness :
    (fetchLoop [c6a, c6b] fetch6).anySuccess = true ∧
    (resultState (updateWithCoords [c6a, c6b] fetch6 50 10 initState)).hadPartialFailure
      = true ∧
    (resultState (updateWithCoords [c6a, c6b] fetch6 50 10 initState)).lastHttpStatus
      = some 500 ∧
    (resultState (updateWithCoords [c6a, c6b] fetch6 50 10 initState)).lastHttpResponse
      = some (coordLabel c6b ++ ": HTTP " ++ toString (500 : Nat) ++ " " ++ "boom") ∧
    (∀ w', _extend_if_grace_applies w6 50 10 true = some w' →
      ∃ ws, resultData (updateWithCoords [c6a, c6b] fetch6 50 10 initState)
          = some ⟨ws⟩ ∧ w' ∈ ws) :=
  C6_partial_failure_amended c6a c6b (some "") "boom" w6
    (JsonOutcome.raised "ignored") fetch6 50 10 initState (by decide) (by decide)

/-- C7: in a cycle where no coordinate fetch succeeds, the coordinator
returns the last-successful snapshot unchanged when one exists (no failure
signalled), and raises `UpdateFailed` when none exists. -/
theorem C7_total_failure_policy (coords : List Coord)
    (fetch : Coord → FetchOutcome) (nowTs g : Int) (st : CycleState)
    (hall : ∀ c ∈ coords, outcomeSuccess (fetch c) = false) :
    (∀ d, st.lastSuccessfulData = some d →
      resultData (updateWithCoords coords fetch nowTs g st) = some d) ∧
    (st.lastSuccessfulData = Option.none →
      resultFailMsg (updateWithCoords coords fetch nowTs g st)
        = some "Error fetching data: all requests failed") := by
  have hA := fetchLoop_noSuccess coords fetch hall
  constructor
  · intro d hd
    simp [updateWithCoords, hA, hd, resultData]
  · intro hd
    simp [updateWithCoords, hA, hd, resultFailMsg]

/-- C7, witness: one coordinate whose request times out, no prior
snapshot — the cycle raises with the total-failure message. -/
theorem C7_witness :
    resultFailMsg (updateWithCoords [c6a]
        (fun _ => FetchOutcome.exn "TimeoutError()") 0 0 initState)
      = some "Error fetching data: all requests failed" :=
  (C7_total_failure_policy [c6a] (fun _ => FetchOutcome.exn "TimeoutError()")
    0 0 initState (fun _ _ => rfl)).2 rfl

/-- C8: for a successful cycle and a cache entry whose key was not seen
this cycle, the entry expires when the grace window is `≤ 0` or no
last-seen time is recorded; otherwise it expires when
`now − last_seen_ts > grace`; otherwise the extender is applied to the
cached original with `allow_invalid_end = false`, the entry being kept
with its result or expired when the extender returns none; an expired
entry's item is removed from the cache and a kept entry's warning is
appended to the cycle output. -/
theorem C8_cache_expiry (ck : List String) (nowTs g : Int) (key : String)
    (entry : CacheEntry) (cache : Cache)
    (hk : ck.contains key = false) :
    ((g ≤ 0 ∨ entry.last_seen_ts = 0) →
      reconcileEntry ck nowTs g key entry = EntryAction.expire) ∧
    (0 < g → entry.last_seen_ts ≠ 0 → g < nowTs - entry.last_seen_ts →
      reconcileEntry ck nowTs g key entry = EntryAction.expire) ∧
    (0 < g → entry.last_seen_ts ≠ 0 → nowTs - entry.last_seen_ts ≤ g →
      reconcileEntry ck nowTs g key entry
        = (match _extend_if_grace_applies entry.warning nowTs g false with
           | some w => EntryAction.keep w
           | Option.none => EntryAction.expire)) ∧
    ((key, entry) ∈ cache →
      reconcileEntry ck nowTs g key entry = EntryAction.expire →
      (key, entry) ∉ cachePop cache (reconcileLoop cache ck nowTs g).1) ∧
    (∀ w', (key, entry) ∈ cache →
      reconcileEntry ck nowTs g key entry = EntryAction.keep w' →
      w' ∈ (reconcileLoop cache ck nowTs g).2) := by
  have hnk : ¬(ck.contains key = true) := by rw [hk]; exact Bool.false_ne_true
  refine ⟨?_, ?_, ?_, ?_, ?_⟩
  · intro hcase
    unfold reconcileEntry
    rw [if_neg hnk, if_pos hcase]
  · intro hg hls hgt
    unfold reconcileEntry
    rw [if_neg hnk, if_neg (by omega), if_pos hgt]
  · intro hg hls hle
    unfold reconcileEntry
    rw [if_neg hnk, if_neg (by omega), if_neg (by omega)]
  · intro hmem hexp hmem'
    have hkey : key ∈ (reconcileLoop cache ck nowTs g).1 := by
      rw [reconcileLoop_eq]
      exact List.mem_filterMap.mpr ⟨(key, entry), hmem, by simp [expiredOf, hexp]⟩
    have hflt : (!(reconcileLoop cache ck nowTs g).1.contains key) = true :=
      (List.mem_filter.mp hmem').2
    have hct : (reconcileLoop cache ck nowTs g).1.contains key = true :=
      List.elem_iff.mpr hkey
    rw [hct] at hflt
    simp at hflt
  · intro w' hmem hkeep
    rw [reconcileLoop_eq]
    exact List.mem_filterMap.mpr ⟨(key, entry), hmem, by simp [keptOf, hkeep]⟩

/-- C8, witness: an unseen entry last seen 50 seconds ago with a 10-second
grace window expires. -/
theorem C8_witness :
    reconcileEntry [] 100 10 "k" ⟨w6, 50⟩ = EntryAction.expire :=
  (C8_cache_expiry [] 100 10 "k" ⟨w6, 50⟩ [("k", ⟨w6, 50⟩)] (by decide)).2.1
    (by decide) (by decide) (by decide)

/-- C9: each fatal pre-fetch error — anchor zone missing, anchor
coordinates missing, anchor coordinates unparsable as floats — makes
`_async_update_data` raise `UpdateFailed` with its descriptive reason,
leaving the warning cache and both retained snapshots untouched. -/
theorem C9_prefetch_failure (zone : Option Zone) (extra : String)
    (fetch : Coord → FetchOutcome) (nowTs g : Int) (st : CycleState) :
    (zone = Option.none →
      resultFailMsg (asyncUpdateData zone extra fetch nowTs g st)
        = some "zone.home not found" ∧
      coreUnchanged st (resultState (asyncUpdateData zone extra fetch nowTs g st))) ∧
    (∀ z, zone = some z →
      (z.longitude = PyVal.none ∨ z.latitude = PyVal.none) →
      resultFailMsg (asyncUpdateData zone extra fetch nowTs g st)
        = some "zone.home has no coordinates" ∧
      coreUnchanged st (resultState (asyncUpdateData zone extra fetch nowTs g st))) ∧
    (∀ z, zone = some z →
      ¬(z.longitude = PyVal.none ∨ z.latitude = PyVal.none) →
      (pyToFloat z.latitude = Option.none ∨ pyToFloat z.longitude = Option.none) →
      resultFailMsg (asyncUpdateData zone extra fetch nowTs g st)
        = some "zone.home has invalid coordinates" ∧
      coreUnchanged st (resultState (asyncUpdateData zone extra fetch nowTs g st))) := by
  refine ⟨?_, ?_, ?_⟩
  · intro hz
    subst hz
    exact ⟨rfl, rfl, rfl, rfl⟩
  · intro z hz hnone
    subst hz
    constructor
    · simp [asyncUpdateData, hnone, resultFailMsg]
    · simp [asyncUpdateData, hnone, coreUnchanged, resultState]
  · intro z hz hnone hbad
    subst hz
    rcases hlat : pyToFloat z.latitude with _ | latF
    · constructor
      · simp [asyncUpdateData, hnone, hlat, resultFailMsg]
      · simp [asyncUpdateData, hnone, hlat, coreUnchanged, resultState]
    · rcases hlon : pyToFloat z.longitude with _ | lonF
      · constructor
        · simp [asyncUpdateData, hnone, hlat, hlon, resultFailMsg]
        · simp [asyncUpdateData, hnone, hlat, hlon, coreUnchanged, resultState]
      · rcases hbad with hbad | hbad
        · rw [hlat] at hbad; exact absurd hbad (by simp)
        · rw [hlon] at hbad; exact absurd hbad (by simp)

/-- C9, witness: a missing anchor zone raises with its reason and the
cache and snapshots of the fresh state are unchanged. -/
theorem C9_witness :
    resultFailMsg (asyncUpdateData Option.none ""
        (fun _ => FetchOutcome.exn "x") 0 0 initState)
      = some "zone.home not found" ∧
    coreUnchanged initState (resultState (asyncUpdateData Option.none ""
        (fun _ => FetchOutcome.exn "x") 0 0 initState)) :=
  (C9_prefetch_failure Option.none "" (fun _ => FetchOutcome.exn "x")
    0 0 initState).1 rfl

/-- C10: a string `end` value that does not parse as a Python integer
(e.g. `"123.5"` or an ISO date) makes `_get_end_ts` return 0 and sends the
extender into the invalid-end branch regardless of the denoted time —
unchanged pass-through when `allow_invalid_end`, `None` otherwise —
whereas a finite float `end` value is truncated toward zero and, when the
truncation is positive, treated as a valid end. -/
theorem C10_end_parsing (w : Warning) :
    (∀ s : String, w.properties.rawinfo.«end» = some (PyVal.str s) →
      pyIntOfString s = Option.none →
      _get_end_ts w = 0 ∧
      ∀ nowTs g : Int,
        _extend_if_grace_applies w nowTs g true = some w ∧
        _extend_if_grace_applies w nowTs g false = Option.none) ∧
    (∀ q : PyQ, w.properties.rawinfo.«end» = some (PyVal.float (PyFloat.finite q)) →
      _get_end_ts w = ratTrunc q ∧
      (0 < ratTrunc q → ∀ nowTs g : Int, nowTs ≤ ratTrunc q →
        _extend_if_grace_applies w nowTs g false = some w)) := by
  constructor
  · intro s hs hparse
    have h0 : _get_end_ts w = 0 := by
      unfold _get_end_ts
      rw [hs]
      simp [pyToInt, hparse]
    refine ⟨h0, fun nowTs g => ⟨?_, ?_⟩⟩
    · have := (extend_machine w nowTs g true).1 (by omega)
      simpa using this
    · have := (extend_machine w nowTs g false).1 (by omega)
      simpa using this
  · intro q hq
    have h0 : _get_end_ts w = ratTrunc q := by
      unfold _get_end_ts
      rw [hq]
      rfl
    exact ⟨h0, fun hpos nowTs g hle =>
      (extend_machine w nowTs g false).2.1 (by omega) (by omega)⟩

/-- C10, witness: `"123.5"` fails integer parsing, gives end 0 and the
invalid-end behaviour; the float `123.9` truncates to the valid end 123
and a warning carrying it survives `allow_invalid_end = false` at
`now = 50`. -/
theorem C10_witness :
    pyIntOfString "123.5" = Option.none ∧
    _get_end_ts (mkEndWarning (PyVal.str "123.5")) = 0 ∧
    _extend_if_grace_applies (mkEndWarning (PyVal.str "123.5")) 7 3 true
      = some (mkEndWarning (PyVal.str "123.5")) ∧
    _extend_if_grace_applies (mkEndWarning (PyVal.str "123.5")) 7 3 false
      = Option.none ∧
    ratTrunc ⟨1239, 10⟩ = 123 ∧
    _get_end_ts (mkEndWarning (PyVal.float (PyFloat.finite ⟨1239, 10⟩))) = 123 ∧
    _extend_if_grace_applies
        (mkEndWarning (PyVal.float (PyFloat.finite ⟨1239, 10⟩))) 50 0 false
      = some (mkEndWarning (PyVal.float (PyFloat.finite ⟨1239, 10⟩))) := by
  refine ⟨by decide, ?_, ?_, ?_, by decide, ?_, ?_⟩
  · exact ((C10_end_parsing _).1 "123.5" rfl (by decide)).1
  · exact (((C10_end_parsing _).1 "123.5" rfl (by decide)).2 7 3).1
  · exact (((C10_end_parsing _).1 "123.5" rfl (by decide)).2 7 3).2
  · have h := ((C10_end_parsing
      (mkEndWarning (PyVal.float (PyFloat.finite ⟨1239, 10⟩)))).2 ⟨1239, 10⟩ rfl).1
    rw [h]; decide
  · exact ((C10_end_parsing _).2 ⟨1239, 10⟩ rfl).2 (by decide) 50 0 (by decide)

end GeoWW
